import Mathlib

/-!
Verification of `tabarules/processing.py`.

Shallow embedding of the module's four functions (`float_processer`,
`boolean_processer`, `cat_processer`, `list_featurize_series`,
`list_featurize_df`) and proofs about them.

Modelling conventions:
* a numeric cell is `Option ℚ` (`none` is `NaN`; exact rationals stand in
  for Python floats, so float rounding is not modelled);
* a categorical cell is `Option String` (`none` is a missing marker);
* Python exceptions are an explicit error type and fallible functions
  return `Except`;
* pandas label lookup on a `reset_index` series (0-based `RangeIndex`)
  raises `KeyError` out of range; numpy integer indexing wraps one level
  of negative indices and raises `IndexError` out of range;
* `str(v)` on a numeric value is `toString` of the rational;
* `math.ceil((i+1)/cutoffs * n)` is computed exactly as
  `⌈((i+1)*n)/cutoffs⌉` with integer ceiling division.
-/

namespace Tabarules

/-- Numeric cell values (Python floats modelled as exact rationals). -/
abbrev Val := ℚ

/-- A cell of a numeric column: `none` models `NaN`. -/
abbrev Cell := Option Val

/-- The Python exceptions the module can raise, plus the two error kinds the
specification names (`InvalidConfiguration`, `TypeMismatch`); the code itself
never constructs the latter two. -/
inductive PyErr where
  | indexError
  | keyError
  | nameError
  | invalidConfiguration
  | typeMismatch
deriving DecidableEq

deriving instance DecidableEq for Except

/-- Ceiling division on integers: `int_ceil_div a b = ⌈a / b⌉` for `b > 0`.
Used to model `math.ceil((i+1)/cutoffs * len_series)` exactly. -/
def int_ceil_div (a b : Int) : Int := -(Int.ediv (-a) b)

/-- Model of numpy 1-d integer indexing `xs[i]`: a negative index wraps once
by the length; anything still out of range raises `IndexError`. -/
def npGet (xs : List Val) (i : Int) : Except PyErr Val :=
  let j : Int := if i < 0 then i + xs.length else i
  if 0 ≤ j ∧ j.toNat < xs.length then .ok (xs.getD j.toNat 0) else .error .indexError

/-- Model of pandas list-label lookup `series[ind_list]` on a series with a
0-based `RangeIndex`: each label must be an existing row label `0 ≤ i < len`,
otherwise the lookup raises `KeyError`. -/
def pdLookup (xs : List Val) : List Int → Except PyErr (List Val)
  | [] => .ok []
  | i :: rest =>
    if 0 ≤ i ∧ i.toNat < xs.length then
      match pdLookup xs rest with
      | .ok vs => .ok (xs.getD i.toNat 0 :: vs)
      | .error e => .error e
    else .error .keyError

/-- Helper for `uniqueFirst`: keeps the first occurrence of each value,
skipping the ones recorded in `seen`. -/
def uniqueFirstAux [DecidableEq α] (seen : List α) : List α → List α
  | [] => []
  | a :: l =>
    if a ∈ seen then uniqueFirstAux seen l
    else a :: uniqueFirstAux (a :: seen) l

/-- Model of `pandas.Series.unique`: the distinct values in order of first
appearance. -/
def uniqueFirst [DecidableEq α] (l : List α) : List α := uniqueFirstAux [] l

/-- The non-missing values of a numeric column, in row order
(`series[np.where(np.logical_not(np.isnan(series)))[0]]`). -/
def not_na_series (series : List Cell) : List Val := series.filterMap id

/-- The non-missing values sorted ascending
(`not_na_series.sort_values().reset_index(drop = True)`). -/
def series_sorted (series : List Cell) : List Val :=
  List.insertionSort (· ≤ ·) (not_na_series series)

/-- The list `[ceil((i+1) / cutoffs * len_series) for i in range(cutoffs-1)]`
from `float_processer`. -/
def cutoff_val_ind (cutoffs : Int) (len_series : Nat) : List Int :=
  (List.range (cutoffs - 1).toNat).map
    (fun i => int_ceil_div (((i : Int) + 1) * (len_series : Int)) cutoffs)

/-- The cutoff values `series_sorted[cutoff_val_ind]` of `float_processer`
(line 45 of the source). -/
def float_cutoff_vals (series : List Cell) (cutoffs : Int) :
    Except PyErr (List Val) :=
  pdLookup (series_sorted series)
    (cutoff_val_ind cutoffs (not_na_series series).length)

/-- Bucket index assigned by the scan loop of `float_processer`: the first
`j` with `x ≤ cutoff_vals[j]`, and `cutoff_vals.length` when `x` exceeds
every cutoff. -/
def float_bucket (cutoff_vals : List Val) (x : Val) : Nat :=
  cutoff_vals.findIdx (fun c => decide (x ≤ c))

/-- The inner `for j in range(len(cutoff_vals))` loop of `float_processer`
for one row, abstracted over the comparison outcome `test c` of
`series[i] <= cutoff_vals[j]`: it appends `str_labels[j]` for the first `j`
passing the test, appends the last label `str_labels[len(cutoff_vals)]` when
no `j` passes, and appends nothing at all when `cutoff_vals` is empty
(the loop body never runs). -/
def float_scan (cutoff_vals : List Val) (str_labels : List String)
    (test : Val → Bool) : List (Option String) :=
  if cutoff_vals.isEmpty then []
  else [some (str_labels.getD (cutoff_vals.findIdx test) "")]

/-- One iteration of the output loop of `float_processer` (lines 57-71):
the cell's contribution to `output_list`. A missing cell with an
unrecognized `na_action` falls through to the scan loop, where every
comparison `NaN <= cutoff` is `False` in Python. -/
def float_row (cutoff_vals : List Val) (str_labels : List String)
    (title na_action : String) : Cell → List (Option String)
  | none =>
    if na_action = "label" then [some (title ++ "_is_na")]
    else if na_action = "return_na" then [none]
    else float_scan cutoff_vals str_labels (fun _ => false)
  | some x => float_scan cutoff_vals str_labels (fun c => decide (x ≤ c))

/-- Model of `float_processer(series, title, cutoffs, na_action)`. -/
def float_processer (series : List Cell) (title : String) (cutoffs : Int)
    (na_action : String) : Except PyErr (List (Option String)) :=
  match float_cutoff_vals series cutoffs with
  | .error e => .error e
  | .ok cutoff_vals =>
    match npGet cutoff_vals (cutoffs - 2) with
    | .error e => .error e
    | .ok last =>
      .ok (series.flatMap (float_row cutoff_vals
        (cutoff_vals.map (fun v => title ++ "_lessthan_" ++ toString v) ++
          [title ++ "_morethan_" ++ toString last])
        title na_action))

/-- One iteration of the output loop of `boolean_processer` (lines 109-122).
A missing cell with an unrecognized `na_action` falls through to
`series[i] == which_yes`, which is `False` for `NaN`, so it is labelled
`"<title>_no"`. -/
def boolean_row (title : String) (which_yes : Val) (na_action : String) :
    Cell → Option String
  | none =>
    if na_action = "label" then some (title ++ "_is_na")
    else if na_action = "return_na" then none
    else some (title ++ "_no")
  | some x =>
    if x = which_yes then some (title ++ "_yes") else some (title ++ "_no")

/-- Model of `boolean_processer(series, title, which_yes, na_action)`:
each row appends exactly one entry, so the output is a `map`. -/
def boolean_processer (series : List Cell) (title : String) (which_yes : Val)
    (na_action : String) : List (Option String) :=
  series.map (boolean_row title which_yes na_action)

/-- One iteration of the output loop of `cat_processer` (lines 162-174):
a non-missing value appends `str_labels[j]` for every `j` with
`series[i] == unique_vals[j]` (the `next` statement in the source is a
no-op, not a `continue`); a missing cell with an unrecognized `na_action`
falls through to the same loop where `NaN` equals no unique value, so
nothing is appended for that row. -/
def cat_row (unique_vals : List String) (title na_action : String) :
    Option String → List (Option String)
  | none =>
    if na_action = "label" then [some (title ++ "_is_na")]
    else if na_action = "return_na" then [none]
    else []
  | some x =>
    (unique_vals.filter (fun u => u = x)).map
      (fun u => some (title ++ "_is_" ++ u))

/-- Model of `cat_processer(series, title, na_action)`. -/
def cat_processer (series : List (Option String)) (title na_action : String) :
    List (Option String) :=
  let unique_vals := uniqueFirst (series.filterMap id)
  series.flatMap (cat_row unique_vals title na_action)

/-- The boolean-dispatch test of `list_featurize_series` (lines 198-199):
`np.array_equal(series.unique()[~pd.isna(series.unique())], np.array([0,1]))`.
`Series.unique` keeps first-appearance order and `np.array_equal` compares
the arrays elementwise, so this is equality with the ordered list `[0, 1]`. -/
def is_boolean_column (data : List Cell) : Bool :=
  uniqueFirst (data.filterMap id) = [0, 1]

/-- A column of the dataframe: `object` dtype (categorical tokens) or a
numeric dtype. -/
inductive Column where
  | numeric (data : List Cell)
  | object (data : List (Option String))

/-- Row count of a column. -/
def Column.length : Column → Nat
  | .numeric data => data.length
  | .object data => data.length

/-- Model of `list_featurize_series(series, title, cutoffs, which_yes,
na_action)`: dtype `'O'` routes to `cat_processer`, else the boolean
dispatch test routes to `boolean_processer`, else to `float_processer`. -/
def list_featurize_series (col : Column) (title : String) (cutoffs : Int)
    (which_yes : Val) (na_action : String) :
    Except PyErr (List (Option String)) :=
  match col with
  | .object data => .ok (cat_processer data title na_action)
  | .numeric data =>
    if is_boolean_column data then
      .ok (boolean_processer data title which_yes na_action)
    else
      float_processer data title cutoffs na_action

/-- A dataframe: its ordered columns, each with a title. -/
abbrev DataFrame := List (String × Column)

/-- Row count `df.shape[0]` of a dataframe (pandas keeps all columns the
same length; `df_valid` states that invariant). -/
def df_nrows (df : DataFrame) : Nat :=
  match df with
  | [] => 0
  | c :: _ => c.2.length

/-- All columns have the row count `df.shape[0]`. -/
def df_valid (df : DataFrame) : Prop :=
  ∀ c ∈ df, c.2.length = df_nrows df

/-- The column loop of `list_featurize_df`: each column is labelled by
`list_featurize_series` with the call-site defaults `cutoffs = 4`,
`which_yes = 1`, `na_action = "return_na"`; the first column-level error
aborts the whole assembly. -/
def processColumns : DataFrame → Except PyErr (List (List (Option String)))
  | [] => .ok []
  | (title, col) :: rest =>
    match list_featurize_series col title 4 1 "return_na" with
    | .error e => .error e
    | .ok s =>
      match processColumns rest with
      | .error e => .error e
      | .ok ls => .ok (s :: ls)

/-- Model of the body of `list_featurize_df(df)` (lines 219-233): label every
column, then for each row index `i` in `range(df.shape[0])` collect the
row's labels across columns in column order and drop the missing markers. -/
def list_featurize_df (df : DataFrame) : Except PyErr (List (List String)) :=
  match processColumns df with
  | .error e => .error e
  | .ok labeled =>
    .ok ((List.range (df_nrows df)).map
      (fun i => (labeled.map (fun ls => ls.getD i none)).filterMap id))

/-- Modelled from the source file: the module-level names of
`tabarules/processing.py` that are bound before the
`def list_featurize_df` statement executes (the four imports and the four
previously defined functions). -/
def module_scope_at_list_featurize_df : List String :=
  ["os", "np", "pd", "mlxtend", "ceil",
   "float_processer", "boolean_processer", "cat_processer",
   "list_featurize_series"]

/-- The Python builtin names the module relies on. -/
def python_builtin_names : List String :=
  ["range", "len", "str", "print"]

/-- The free names of the default-value expression
`[i for i in range(df.shape[0])]` of the parameter `index_list`
(`i` is bound by the comprehension itself, so the free names are `range`
and `df`). -/
def index_list_default_free_names : List String := ["range", "df"]

/-- Python evaluates a parameter's default-value expression once, at
function-definition time, in the enclosing module scope (parameters of the
function being defined are not in scope there); evaluation succeeds exactly
when every free name of the expression is bound in the module scope or is a
builtin, and otherwise the `def` statement raises `NameError`. -/
def index_list_default_evaluates : Bool :=
  index_list_default_free_names.all
    (fun n =>
      module_scope_at_list_featurize_df.contains n ||
        python_builtin_names.contains n)

/-- Relabelling of one cell when `na_action` switches from `"return_na"` to
`"label"`: a missing cell's output becomes the `"<title>_is_na"` token and a
non-missing cell's output is unchanged. -/
def na_relabel (title : String) : Option α → Option String → Option String
  | none, _ => some (title ++ "_is_na")
  | some _, o => o

/-! ## Helper lemmas -/

theorem npGet_nil (i : Int) : npGet [] i = .error .indexError := by
  simp [npGet]

theorem npGet_ok_ne_nil {xs : List Val} {i : Int} {v : Val}
    (h : npGet xs i = .ok v) : xs ≠ [] := by
  intro hx
  rw [hx, npGet_nil] at h
  exact Except.noConfusion h

theorem pdLookup_ok (xs : List Val) (inds : List Int)
    (h : ∀ i ∈ inds, 0 ≤ i ∧ i.toNat < xs.length) :
    pdLookup xs inds = .ok (inds.map (fun i => xs.getD i.toNat 0)) := by
  induction inds with
  | nil => rfl
  | cons i rest ih =>
    have hi : 0 ≤ i ∧ i.toNat < xs.length := h i (by simp)
    rw [pdLookup, if_pos hi, ih (fun j hj => h j (by simp [hj]))]
    simp

theorem cutoff_val_ind_nil (cutoffs : Int) (n : Nat) (h : cutoffs < 2) :
    cutoff_val_ind cutoffs n = [] := by
  have h1 : (cutoffs - 1).toNat = 0 := Int.toNat_of_nonpos (by omega)
  simp [cutoff_val_ind, h1]

/-! ## Claim C2 -/

/-- C2 (counterexample): with `cutoffs = 1` the continuous labeler does not
raise an `InvalidConfiguration` error; it crashes with an unchecked
`IndexError` (from `cutoff_vals[cutoffs-2]` on the empty cutoff array). -/
theorem C2_counterexample :
    float_processer [some 1, some 2] "t" 1 "return_na" =
      .error .indexError ∧
    (Except.error .indexError : Except PyErr (List (Option String))) ≠
      .error .invalidConfiguration := by
  constructor
  · decide
  · decide

/-- C2 (amended): for every column, title and missing-value policy, calling
the continuous labeler with `cutoffs < 2` fails, but with an unchecked
`IndexError` from indexing the empty cutoff array, not with a dedicated
`InvalidConfiguration` check. -/
theorem C2_amended_holds (series : List Cell) (title na_action : String)
    (cutoffs : Int) (h : cutoffs < 2) :
    float_processer series title cutoffs na_action = .error .indexError := by
  rw [float_processer, float_cutoff_vals, cutoff_val_ind_nil cutoffs _ h]
  rw [pdLookup]
  simp [npGet_nil]

/-- C2 (witness): the amended theorem at `series = [1, 2]`, `cutoffs = 1`. -/
theorem C2_witness :
    float_processer [some 1, some 2] "t" 1 "return_na" =
      .error .indexError :=
  C2_amended_holds [some 1, some 2] "t" "return_na" 1 (by decide)

/-! ## Claim C3 -/

/-- C3 (code bug): the spec requires the continuous labeler not to fail on a
column with zero or one distinct non-missing value, but the code raises a
pandas `KeyError` in both degenerate cases: the boundary indices
`ceil((i+1)/cutoffs * n)` (0 for `n = 0`, 1 for `n = 1`) are not valid row
labels of the sorted non-missing series of length `n`. -/
theorem C3_code_behavior :
    float_processer [none, none] "t" 4 "return_na" = .error .keyError ∧
    float_processer [some 5, none] "t" 4 "return_na" = .error .keyError := by
  constructor
  · decide
  · decide

/-! ## Claim C5 -/

/-- C5 (code bug): the default-value expression
`[i for i in range(df.shape[0])]` of the `index_list` parameter of
`list_featurize_df` references the free name `df`, which is not bound in the
module scope (and is not a builtin) when the `def` statement executes, so
Python raises `NameError` while defining the function and
`list_featurize_df(df)` can never be invoked. -/
theorem C5_code_behavior :
    index_list_default_evaluates = false ∧
    "df" ∈ index_list_default_free_names ∧
    "df" ∉ module_scope_at_list_featurize_df ∧
    "df" ∉ python_builtin_names := by
  refine ⟨by decide, by decide, by decide, by decide⟩

/-! ## Claim C6 -/

/-- C6 (counterexample): on the column `[5]` (a non-missing value outside
`{0, 1}`) the boolean labeler does not fail with a `TypeMismatch`; it
silently returns the label `"t_no"`. -/
theorem C6_counterexample :
    boolean_processer [some 5] "t" 1 "return_na" = [some "t_no"] := by
  decide

/-- C6 (amended): the boolean labeler performs no precondition check and
never fails: it is total, length-preserving, and silently labels every
non-missing value different from `which_yes` (including values outside
`{0, 1}`) with `"<title>_no"`, and `which_yes` itself with `"<title>_yes"`. -/
theorem C6_amended_holds (series : List Cell) (title na_action : String)
    (which_yes x : Val) (hx : x ≠ which_yes) :
    boolean_row title which_yes na_action (some x) =
      some (title ++ "_no") ∧
    boolean_row title which_yes na_action (some which_yes) =
      some (title ++ "_yes") ∧
    (boolean_processer series title which_yes na_action).length =
      series.length := by
  refine ⟨by simp [boolean_row, hx], by simp [boolean_row],
    List.length_map _ _⟩

/-- C6 (witness): the amended theorem at `x = 5`, `which_yes = 1`,
column `[5]`. -/
theorem C6_witness :
    boolean_row "t" 1 "return_na" (some 5) = some ("t" ++ "_no") ∧
    boolean_row "t" 1 "return_na" (some 1) = some ("t" ++ "_yes") ∧
    (boolean_processer [some 5] "t" 1 "return_na").length =
      ([some 5] : List Cell).length :=
  C6_amended_holds [some 5] "t" "return_na" 1 5 (by decide)

/-! ## Claim C1 -/

/-- C1 (counterexample): for the column `[1,2,3,4,5,6,7,8]` with
`cutoffs = 4` the code indexes the sorted values 0-based at
`ceil((i+1)/cutoffs*n) = 2, 4, 6`, giving cutoffs `[3, 5, 7]`: the second
cutoff is `5`, not the spec's `4`, and the value `4` receives the label
`"title_lessthan_5"`, not `"title_lessthan_4"`. -/
theorem C1_counterexample :
    float_cutoff_vals
        [some 1, some 2, some 3, some 4, some 5, some 6, some 7, some 8]
        4 = .ok [3, 5, 7] ∧
    ([3, 5, 7] : List ℚ).getD 1 0 ≠ 4 ∧
    float_processer
        [some 1, some 2, some 3, some 4, some 5, some 6, some 7, some 8]
        "title" 4 "return_na" =
      .ok [some "title_lessthan_3", some "title_lessthan_3",
           some "title_lessthan_3", some "title_lessthan_5",
           some "title_lessthan_5", some "title_lessthan_7",
           some "title_lessthan_7", some "title_morethan_7"] ∧
    (some "title_lessthan_5" : Option String) ≠ some "title_lessthan_4" := by
  refine ⟨by decide, by decide, by decide, by decide⟩

/-- C1 (amended): the cutoff sequence is obtained by 0-based indexing, not
1-based: whenever all the boundary indices `ceil((i+1)/cutoffs * n)` are in
range, the i-th cutoff equals the value at 0-based index
`ceil((i+1)/cutoffs * n)` (1-based position one greater) of the
ascending-sorted non-missing values. -/
theorem C1_amended_holds (series : List Cell) (cutoffs : Int)
    (h : ∀ i ∈ cutoff_val_ind cutoffs (not_na_series series).length,
           0 ≤ i ∧ i.toNat < (series_sorted series).length) :
    List.Sorted (· ≤ ·) (series_sorted series) ∧
    (series_sorted series).Perm (not_na_series series) ∧
    float_cutoff_vals series cutoffs =
      .ok ((cutoff_val_ind cutoffs (not_na_series series).length).map
            (fun i => (series_sorted series).getD i.toNat 0)) :=
  ⟨List.sorted_insertionSort _ _, List.perm_insertionSort _ _,
    pdLookup_ok _ _ h⟩

/-- C1 (witness): the amended theorem applied to the column
`[1,2,3,4,5,6,7,8]` with `cutoffs = 4`. -/
theorem C1_witness :
    float_cutoff_vals
        [some 1, some 2, some 3, some 4, some 5, some 6, some 7, some 8]
        4 = .ok [3, 5, 7] :=
  ((C1_amended_holds
      [some 1, some 2, some 3, some 4, some 5, some 6, some 7, some 8]
      4 (by decide)).2.2).trans (by decide)

/-! ## Claim C8 -/

theorem float_bucket_nil (x : Val) : float_bucket [] x = 0 := rfl

theorem float_bucket_cons (c : Val) (t : List Val) (x : Val) :
    float_bucket (c :: t) x = if x ≤ c then 0 else float_bucket t x + 1 := by
  simp only [float_bucket, List.findIdx_cons]
  by_cases h : x ≤ c <;> simp [h]

theorem float_bucket_le_length (cv : List Val) (x : Val) :
    float_bucket cv x ≤ cv.length := by
  induction cv with
  | nil => simp [float_bucket_nil]
  | cons c t ih =>
    rw [float_bucket_cons]
    by_cases h : x ≤ c
    · simp [h]
    · simpa [h] using Nat.succ_le_succ ih

theorem float_bucket_spec_le (cv : List Val) (x : Val) :
    float_bucket cv x < cv.length →
      x ≤ cv.getD (float_bucket cv x) 0 := by
  induction cv with
  | nil => intro h; simp [float_bucket_nil] at h
  | cons c t ih =>
    intro h
    rw [float_bucket_cons] at h ⊢
    by_cases hc : x ≤ c
    · simp [hc]
    · rw [if_neg hc] at h ⊢
      rw [List.getD_cons_succ]
      exact ih (by simpa using Nat.lt_of_succ_lt_succ h)

theorem float_bucket_spec_lt (cv : List Val) (x : Val) :
    ∀ k, k < float_bucket cv x → cv.getD k 0 < x := by
  induction cv with
  | nil => intro k hk; simp [float_bucket_nil] at hk
  | cons c t ih =>
    intro k hk
    rw [float_bucket_cons] at hk
    by_cases hc : x ≤ c
    · simp [hc] at hk
    · rw [if_neg hc] at hk
      cases k with
      | zero => simpa using lt_of_not_le hc
      | succ k =>
        rw [List.getD_cons_succ]
        exact ih k (Nat.lt_of_succ_lt_succ hk)

theorem float_bucket_eq_length_iff (cv : List Val) (x : Val) :
    float_bucket cv x = cv.length ↔ ∀ c ∈ cv, c < x := by
  induction cv with
  | nil => simp [float_bucket_nil]
  | cons c t ih =>
    rw [float_bucket_cons]
    by_cases hc : x ≤ c
    · rw [if_pos hc]
      constructor
      · intro h; exact absurd h.symm (by simp)
      · intro h; exact absurd (h c (by simp)) (not_lt.2 hc)
    · rw [if_neg hc]
      simp only [List.length_cons, Nat.succ_inj, List.forall_mem_cons, ih]
      exact ⟨fun h => ⟨lt_of_not_le hc, h⟩, fun h => h.2⟩

theorem float_bucket_mono (cv : List Val) (x1 x2 : Val) (h : x1 ≤ x2) :
    float_bucket cv x1 ≤ float_bucket cv x2 := by
  induction cv with
  | nil => simp [float_bucket_nil]
  | cons c t ih =>
    rw [float_bucket_cons, float_bucket_cons]
    by_cases h2 : x2 ≤ c
    · simp [le_trans h h2, h2]
    · by_cases h1 : x1 ≤ c
      · simp [h1, h2]
      · simpa [h1, h2] using Nat.succ_le_succ ih

/-- C8 (confirmed): a non-missing value `x` is assigned the label of the
first cutoff `c` (in the given order) with `x ≤ c` — so a tie at a boundary
goes to the lower, "lessthan", bucket — and the final "morethan" label
(index `cutoff_vals.length` in `str_labels`) exactly when `x` exceeds every
cutoff; moreover the bucket index is monotone in the value. -/
theorem C8_holds (cutoff_vals : List Val) (str_labels : List String)
    (title na_action : String) (x x1 x2 : Val)
    (hcv : cutoff_vals ≠ []) (h12 : x1 ≤ x2) :
    float_row cutoff_vals str_labels title na_action (some x) =
      [some (str_labels.getD (float_bucket cutoff_vals x) "")] ∧
    float_bucket cutoff_vals x ≤ cutoff_vals.length ∧
    (float_bucket cutoff_vals x < cutoff_vals.length →
       x ≤ cutoff_vals.getD (float_bucket cutoff_vals x) 0) ∧
    (∀ k, k < float_bucket cutoff_vals x → cutoff_vals.getD k 0 < x) ∧
    (float_bucket cutoff_vals x = cutoff_vals.length ↔
       ∀ c ∈ cutoff_vals, c < x) ∧
    float_bucket cutoff_vals x1 ≤ float_bucket cutoff_vals x2 := by
  refine ⟨?_, float_bucket_le_length _ _, float_bucket_spec_le _ _,
    float_bucket_spec_lt _ _, float_bucket_eq_length_iff _ _,
    float_bucket_mono _ _ _ h12⟩
  cases cutoff_vals with
  | nil => exact absurd rfl hcv
  | cons c t => rfl

/-- C8 (witness): the theorem at `cutoff_vals = [3, 5, 7]`, `x = 4`,
`x1 = 4 ≤ x2 = 6`. -/
theorem C8_witness :
    float_row [3, 5, 7]
        ["t_lessthan_3", "t_lessthan_5", "t_lessthan_7", "t_morethan_7"]
        "t" "return_na" (some 4) =
      [some (["t_lessthan_3", "t_lessthan_5", "t_lessthan_7",
              "t_morethan_7"].getD (float_bucket [3, 5, 7] 4) "")] ∧
    float_bucket [3, 5, 7] 4 ≤ float_bucket [3, 5, 7] 6 :=
  ⟨(C8_holds [3, 5, 7]
      ["t_lessthan_3", "t_lessthan_5", "t_lessthan_7", "t_morethan_7"]
      "t" "return_na" 4 4 6 (by decide) (by decide)).1,
   (C8_holds [3, 5, 7]
      ["t_lessthan_3", "t_lessthan_5", "t_lessthan_7", "t_morethan_7"]
      "t" "return_na" 4 4 6 (by decide) (by decide)).2.2.2.2.2⟩

/-! ## Claim C4 -/

theorem mem_uniqueFirstAux [DecidableEq α] (a : α) (l : List α) :
    ∀ seen, a ∈ uniqueFirstAux seen l ↔ a ∈ l ∧ a ∉ seen := by
  induction l with
  | nil => intro seen; simp [uniqueFirstAux]
  | cons b t ih =>
    intro seen
    by_cases hb : b ∈ seen
    · rw [uniqueFirstAux, if_pos hb, ih]
      constructor
      · rintro ⟨h1, h2⟩; exact ⟨List.mem_cons_of_mem _ h1, h2⟩
      · rintro ⟨h1, h2⟩
        rcases List.mem_cons.1 h1 with rfl | h1
        · exact absurd hb h2
        · exact ⟨h1, h2⟩
    · rw [uniqueFirstAux, if_neg hb]
      constructor
      · intro h
        rcases List.mem_cons.1 h with rfl | h
        · exact ⟨List.mem_cons_self _ _, hb⟩
        · rw [ih] at h
          refine ⟨List.mem_cons_of_mem _ h.1, fun hs => h.2 ?_⟩
          exact List.mem_cons_of_mem _ hs
      · rintro ⟨h1, h2⟩
        rcases List.mem_cons.1 h1 with rfl | h1
        · exact List.mem_cons_self _ _
        · by_cases hab : a = b
          · subst hab; exact List.mem_cons_self _ _
          · refine List.mem_cons_of_mem _ ((ih _).2 ⟨h1, fun hs => ?_⟩)
            rcases List.mem_cons.1 hs with h | h
            · exact hab h
            · exact h2 h

theorem uniqueFirstAux_eq_nil [DecidableEq α] (l : List α) :
    ∀ seen, (∀ x ∈ l, x ∈ seen) → uniqueFirstAux seen l = [] := by
  induction l with
  | nil => intro seen _; rfl
  | cons b t ih =>
    intro seen h
    rw [uniqueFirstAux, if_pos (h b (by simp))]
    exact ih seen (fun x hx => h x (by simp [hx]))

theorem uniqueFirstAux_eq_single [DecidableEq α] (v : α) (l : List α) :
    ∀ seen, v ∈ l → v ∉ seen → (∀ x ∈ l, x ∈ seen ∨ x = v) →
      uniqueFirstAux seen l = [v] := by
  induction l with
  | nil => intro seen h; simp at h
  | cons b t ih =>
    intro seen hv hvs hcov
    by_cases hb : b ∈ seen
    · rw [uniqueFirstAux, if_pos hb]
      have hv' : v ∈ t := by
        rcases List.mem_cons.1 hv with rfl | h
        · exact absurd hb hvs
        · exact h
      exact ih seen hv' hvs (fun x hx => hcov x (by simp [hx]))
    · have hbv : b = v := (hcov b (by simp)).resolve_left hb
      subst hbv
      rw [uniqueFirstAux, if_neg hb]
      rw [uniqueFirstAux_eq_nil t (b :: seen) ?_]
      intro x hx
      rcases hcov x (by simp [hx]) with h | h
      · exact List.mem_cons_of_mem _ h
      · simp [h]

theorem uniqueFirst_eq_pair_iff (v : List ℚ) :
    uniqueFirst v = [0, 1] ↔
      v.head? = some 0 ∧ 1 ∈ v ∧ ∀ x ∈ v, x = 0 ∨ x = 1 := by
  constructor
  · intro h
    cases v with
    | nil => simp [uniqueFirst, uniqueFirstAux] at h
    | cons a t =>
      rw [uniqueFirst, uniqueFirstAux, if_neg (by simp)] at h
      obtain ⟨ha, ht⟩ : a = 0 ∧ uniqueFirstAux [a] t = [1] := by
        exact ⟨by injection h, by injection h⟩
      subst ha
      refine ⟨rfl, ?_, ?_⟩
      · have h1 : (1 : ℚ) ∈ uniqueFirstAux [0] t := by rw [ht]; simp
        rw [mem_uniqueFirstAux] at h1
        exact List.mem_cons_of_mem _ h1.1
      · intro x hx
        rcases List.mem_cons.1 hx with rfl | hx
        · exact Or.inl rfl
        · by_cases hx0 : x = 0
          · exact Or.inl hx0
          · have hm : x ∈ uniqueFirstAux [0] t :=
              (mem_uniqueFirstAux x t [0]).2 ⟨hx, by simp [hx0]⟩
            rw [ht] at hm
            simp only [List.mem_singleton] at hm
            exact Or.inr hm
  · rintro ⟨h0, h1, hcov⟩
    cases v with
    | nil => simp at h0
    | cons a t =>
      have ha : a = 0 := by simpa using h0
      subst ha
      rw [uniqueFirst, uniqueFirstAux, if_neg (by simp)]
      have h1t : (1 : ℚ) ∈ t := by
        rcases List.mem_cons.1 h1 with h | h
        · norm_num at h
        · exact h
      rw [uniqueFirstAux_eq_single 1 t [0] h1t (by norm_num) ?_]
      intro x hx
      rcases hcov x (List.mem_cons_of_mem _ hx) with h | h
      · exact Or.inl (by simp [h])
      · exact Or.inr h

/-- C4 (counterexample): the column `[1, 0]` has distinct non-missing value
set `{0, 1}`, yet the classifier does not select the Boolean labeler: the
dispatch test compares `Series.unique` (first-appearance order `[1, 0]`)
elementwise against `[0, 1]`, so the column is routed to `float_processer`
(which here even fails with a `KeyError`). -/
theorem C4_counterexample :
    (([some 1, some 0] : List Cell).filterMap id).toFinset =
      ({0, 1} : Finset ℚ) ∧
    is_boolean_column [some 1, some 0] = false ∧
    list_featurize_series (Column.numeric [some 1, some 0]) "t" 4 1
        "return_na" = .error .keyError ∧
    (Except.error .keyError : Except PyErr (List (Option String))) ≠
      .ok (boolean_processer [some 1, some 0] "t" 1 "return_na") := by
  refine ⟨by decide, by decide, by decide, by decide⟩

/-- C4 (amended): the classifier selects the Boolean labeler exactly when
the distinct non-missing values in order of first appearance are the
ordered sequence `[0, 1]` — that is, every non-missing value is `0` or `1`,
`1` occurs, and the first non-missing value is `0`; order of first
appearance matters, so a column whose values appear as `1` then `0` is
routed to the continuous labeler instead. -/
theorem C4_amended_holds (data : List Cell) (title : String) (cutoffs : Int)
    (which_yes : Val) (na_action : String) :
    (is_boolean_column data = true ↔
       ((data.filterMap id).head? = some 0 ∧ 1 ∈ data.filterMap id ∧
         ∀ x ∈ data.filterMap id, x = 0 ∨ x = 1)) ∧
    (is_boolean_column data = true →
       list_featurize_series (Column.numeric data) title cutoffs which_yes
           na_action =
         .ok (boolean_processer data title which_yes na_action)) ∧
    (is_boolean_column data = false →
       list_featurize_series (Column.numeric data) title cutoffs which_yes
           na_action =
         float_processer data title cutoffs na_action) := by
  refine ⟨?_, ?_, ?_⟩
  · rw [is_boolean_column, decide_eq_true_iff]
    exact uniqueFirst_eq_pair_iff (data.filterMap id)
  · intro h; simp [list_featurize_series, h]
  · intro h; simp [list_featurize_series, h]

/-- C4 (witness): the amended theorem routes the column `[0, 1]` to the
boolean labeler. -/
theorem C4_witness :
    list_featurize_series (Column.numeric [some 0, some 1]) "t" 4 1
        "return_na" =
      .ok (boolean_processer [some 0, some 1] "t" 1 "return_na") :=
  (C4_amended_holds [some 0, some 1] "t" 4 1 "return_na").2.1 (by decide)

/-! ## Claim C7 -/

theorem findIdx_const_false (l : List α) :
    l.findIdx (fun _ => false) = l.length := by
  induction l with
  | nil => rfl
  | cons a t ih => simp [List.findIdx_cons, ih]

/-- C7 (counterexample): an unrecognized missing-value policy (`"bogus"`)
raises no error at all: `float_processer` lets the missing cell fall through
the scan loop (every `NaN <= cutoff` comparison is false) and labels it with
the final "morethan" label, while `cat_processer` appends nothing for the
missing cell and returns an output shorter than its input. -/
theorem C7_counterexample :
    float_processer [some 1, some 2, some 3, some 4, none] "t" 2 "bogus" =
      .ok [some "t_lessthan_3", some "t_lessthan_3", some "t_lessthan_3",
           some "t_morethan_3", some "t_morethan_3"] ∧
    (Except.ok [some "t_lessthan_3", some "t_lessthan_3",
        some "t_lessthan_3", some "t_morethan_3", some "t_morethan_3"] :
      Except PyErr (List (Option String))) ≠ .error .invalidConfiguration ∧
    cat_processer [some "a", none] "t" "bogus" = [some "t_is_a"] ∧
    ([some "t_is_a"] : List (Option String)).length ≠
      ([some "a", none] : List (Option String)).length := by
  refine ⟨by decide, by decide, by decide, by decide⟩

/-- C7 (amended): no validation of the missing-value policy exists; with a
policy that is neither `"label"` nor `"return_na"`, a missing cell falls
through to the ordinary-value logic of each processer: `float_processer`
assigns it the final "morethan" label, `boolean_processer` assigns
`"<title>_no"`, and `cat_processer` appends nothing (shortening its
output); no `InvalidConfiguration` error is raised. -/
theorem C7_amended_holds (cutoff_vals : List Val) (str_labels : List String)
    (unique_vals : List String) (title na_action : String) (which_yes : Val)
    (h1 : na_action ≠ "label") (h2 : na_action ≠ "return_na")
    (hcv : cutoff_vals ≠ []) :
    float_row cutoff_vals str_labels title na_action none =
      [some (str_labels.getD cutoff_vals.length "")] ∧
    boolean_row title which_yes na_action none = some (title ++ "_no") ∧
    cat_row unique_vals title na_action none = [] := by
  refine ⟨?_, by simp [boolean_row, h1, h2], by simp [cat_row, h1, h2]⟩
  cases cutoff_vals with
  | nil => exact absurd rfl hcv
  | cons c t =>
    simp [float_row, float_scan, h1, h2, findIdx_const_false]

/-- C7 (witness): the amended theorem at policy `"bogus"`,
`cutoff_vals = [3]`. -/
theorem C7_witness :
    float_row [3] ["t_lessthan_3", "t_morethan_3"] "t" "bogus" none =
      [some (["t_lessthan_3", "t_morethan_3"].getD
        ([3] : List ℚ).length "")] ∧
    boolean_row "t" 1 "bogus" none = some ("t" ++ "_no") :=
  ⟨(C7_amended_holds [3] ["t_lessthan_3", "t_morethan_3"] [] "t" "bogus" 1
      (by decide) (by decide) (by decide)).1,
   (C7_amended_holds [3] ["t_lessthan_3", "t_morethan_3"] [] "t" "bogus" 1
      (by decide) (by decide) (by decide)).2.1⟩

/-! ## Claim C9 -/

theorem processColumns_length (df : DataFrame) :
    ∀ ls, processColumns df = .ok ls → ls.length = df.length := by
  induction df with
  | nil =>
    intro ls h
    rw [processColumns] at h
    injection h with h'
    rw [← h']
    rfl
  | cons c rest ih =>
    intro ls h
    obtain ⟨title, col⟩ := c
    rw [processColumns] at h
    cases h1 : list_featurize_series col title 4 1 "return_na" with
    | error e => rw [h1] at h; exact Except.noConfusion h
    | ok s =>
      rw [h1] at h
      cases h2 : processColumns rest with
      | error e => rw [h2] at h; exact Except.noConfusion h
      | ok ls' =>
        rw [h2] at h
        injection h with h'
        rw [← h']
        simp [ih ls' h2]

theorem getD_map_range (f : Nat → β) (n i : Nat) (d : β) (h : i < n) :
    ((List.range n).map f).getD i d = f i := by
  rw [List.getD_eq_getElem?_getD, List.getElem?_map, List.getElem?_range h]
  rfl

/-- C9 (confirmed): whenever the row assembler succeeds, the per-column
labeling `labeled` produced by the column loop has exactly one labeled
column per source column (in column order), the transaction store has
exactly one itemset per input row, and the itemset at row index `i` is
exactly the row-`i` entry of each labeled column, taken in column order
with the missing markers dropped — so itemsets appear in source row order
and each itemset holds at most one label per source column. -/
theorem C9_holds (df : DataFrame) (store : List (List String))
    (_hv : df_valid df) (h : list_featurize_df df = .ok store) :
    ∃ labeled : List (List (Option String)),
      processColumns df = .ok labeled ∧
      labeled.length = df.length ∧
      store.length = df_nrows df ∧
      ∀ i, i < df_nrows df →
        store.getD i [] =
          (labeled.map (fun ls => ls.getD i none)).filterMap id := by
  rw [list_featurize_df] at h
  cases hp : processColumns df with
  | error e => rw [hp] at h; exact Except.noConfusion h
  | ok labeled =>
    rw [hp] at h
    injection h with h'
    refine ⟨labeled, rfl, processColumns_length df labeled hp, ?_, ?_⟩
    · rw [← h']
      simp
    · intro i hi
      rw [← h', getD_map_range _ _ _ _ hi]

/-- C9 (witness): the theorem at a concrete one-column two-row dataframe. -/
theorem C9_witness :
    ∃ labeled : List (List (Option String)),
      processColumns [("c", Column.numeric [some 0, some 1])] =
        .ok labeled ∧
      labeled.length =
        ([("c", Column.numeric [some 0, some 1])] : DataFrame).length ∧
      ([["c_no"], ["c_yes"]] : List (List String)).length =
        df_nrows [("c", Column.numeric [some 0, some 1])] ∧
      ∀ i, i < df_nrows [("c", Column.numeric [some 0, some 1])] →
        ([["c_no"], ["c_yes"]] : List (List String)).getD i [] =
          (labeled.map (fun ls => ls.getD i none)).filterMap id :=
  C9_holds [("c", Column.numeric [some 0, some 1])] [["c_no"], ["c_yes"]]
    (by unfold df_valid; decide) (by decide)

/-! ## Claim C10 -/

theorem float_row_label_relabel (cv : List Val) (sl : List String)
    (title : String) (hcv : cv ≠ []) (series : List Cell) :
    series.flatMap (float_row cv sl title "label") =
      List.zipWith (na_relabel title) series
        (series.flatMap (float_row cv sl title "return_na")) := by
  obtain ⟨c, t, rfl⟩ := List.exists_cons_of_ne_nil hcv
  induction series with
  | nil => rfl
  | cons cell rest ih =>
    cases cell with
    | none => simp [List.flatMap_cons, float_row, na_relabel, ih]
    | some x => simp [List.flatMap_cons, float_row, float_scan, na_relabel, ih]

theorem float_processer_error_iff (series : List Cell) (title : String)
    (cutoffs : Int) (na1 na2 : String) (e : PyErr) :
    float_processer series title cutoffs na1 = .error e ↔
      float_processer series title cutoffs na2 = .error e := by
  rw [float_processer, float_processer]
  cases float_cutoff_vals series cutoffs with
  | error e' => simp
  | ok cv =>
    dsimp only
    cases npGet cv (cutoffs - 2) with
    | error e' => simp
    | ok last => simp

theorem float_processer_label_of_rna (series : List Cell) (title : String)
    (cutoffs : Int) (out : List (Option String))
    (h : float_processer series title cutoffs "return_na" = .ok out) :
    float_processer series title cutoffs "label" =
      .ok (List.zipWith (na_relabel title) series out) := by
  rw [float_processer] at h ⊢
  cases hcv : float_cutoff_vals series cutoffs with
  | error e => rw [hcv] at h; exact Except.noConfusion h
  | ok cv =>
    rw [hcv] at h
    dsimp only at h
    cases hn : npGet cv (cutoffs - 2) with
    | error e => rw [hn] at h; exact Except.noConfusion h
    | ok last =>
      rw [hn] at h
      dsimp only at h
      injection h with h'
      dsimp only
      rw [hn]
      dsimp only
      rw [← h', float_row_label_relabel cv _ title (npGet_ok_ne_nil hn)]

theorem boolean_processer_label_relabel (series : List Cell)
    (title : String) (which_yes : Val) :
    boolean_processer series title which_yes "label" =
      List.zipWith (na_relabel title) series
        (boolean_processer series title which_yes "return_na") := by
  induction series with
  | nil => rfl
  | cons cell rest ih =>
    cases cell with
    | none => simpa [boolean_processer, boolean_row, na_relabel] using ih
    | some x => simpa [boolean_processer, boolean_row, na_relabel] using ih

theorem uniqueFirstAux_nodup [DecidableEq α] (l : List α) :
    ∀ seen, (uniqueFirstAux seen l).Nodup := by
  induction l with
  | nil => intro seen; simp [uniqueFirstAux]
  | cons b t ih =>
    intro seen
    by_cases hb : b ∈ seen
    · rw [uniqueFirstAux, if_pos hb]; exact ih seen
    · rw [uniqueFirstAux, if_neg hb, List.nodup_cons]
      refine ⟨fun hmem => ?_, ih (b :: seen)⟩
      rw [mem_uniqueFirstAux] at hmem
      exact hmem.2 (List.mem_cons_self _ _)

theorem filter_eq_singleton_of_nodup [DecidableEq α] (l : List α) (x : α)
    (hnd : l.Nodup) (hx : x ∈ l) :
    l.filter (fun u => u = x) = [x] := by
  induction l with
  | nil => simp at hx
  | cons b t ih =>
    rw [List.nodup_cons] at hnd
    rcases List.mem_cons.1 hx with rfl | hx'
    · have ht : t.filter (fun u => u = x) = [] := by
        rw [List.filter_eq_nil_iff]
        intro u hu
        simp only [decide_eq_true_eq]
        rintro rfl
        exact hnd.1 hu
      simp [List.filter_cons, ht]
    · have hbx : ¬(b = x) := fun hh => hnd.1 (hh ▸ hx')
      simp [List.filter_cons, hbx, ih hnd.2 hx']

theorem cat_flatMap_label_relabel (uniq : List String) (title : String)
    (l : List (Option String))
    (h : ∀ x : String, some x ∈ l → uniq.filter (fun u => u = x) = [x]) :
    l.flatMap (cat_row uniq title "label") =
      List.zipWith (na_relabel title) l
        (l.flatMap (cat_row uniq title "return_na")) := by
  induction l with
  | nil => rfl
  | cons cell rest ih =>
    have ih' := ih (fun x hx => h x (List.mem_cons_of_mem _ hx))
    cases cell with
    | none => simp [List.flatMap_cons, cat_row, na_relabel, ih']
    | some x =>
      have hx := h x (List.mem_cons_self _ _)
      simp [List.flatMap_cons, cat_row, hx, na_relabel, ih']

theorem cat_processer_label_relabel (series : List (Option String))
    (title : String) :
    cat_processer series title "label" =
      List.zipWith (na_relabel title) series
        (cat_processer series title "return_na") := by
  rw [cat_processer, cat_processer]
  refine cat_flatMap_label_relabel _ _ _ (fun x hx => ?_)
  refine filter_eq_singleton_of_nodup _ x (uniqueFirstAux_nodup _ []) ?_
  rw [uniqueFirst, mem_uniqueFirstAux]
  refine ⟨?_, by simp⟩
  rw [List.mem_filterMap]
  exact ⟨some x, hx, rfl⟩

/-- C10 (confirmed): switching the missing-value policy from exclude
(`"return_na"`) to label (`"label"`) replaces each missing cell's output by
the `"<title>_is_na"` token, leaves every non-missing cell's label
unchanged, and changes nothing else: the error behavior of the continuous
labeler is identical under both policies, and on success each of the three
labelers' label-policy output is the exclude-policy output with exactly the
previously-missing positions relabelled `"<title>_is_na"`. -/
theorem C10_holds (cutoff_vals : List Val) (str_labels : List String)
    (unique_vals : List String) (series : List Cell)
    (cats : List (Option String)) (title : String) (cutoffs : Int)
    (which_yes : Val) :
    (float_row cutoff_vals str_labels title "label" none =
        [some (title ++ "_is_na")] ∧
      float_row cutoff_vals str_labels title "return_na" none = [none] ∧
      ∀ x : Val,
        float_row cutoff_vals str_labels title "label" (some x) =
          float_row cutoff_vals str_labels title "return_na" (some x)) ∧
    (boolean_row title which_yes "label" none = some (title ++ "_is_na") ∧
      boolean_row title which_yes "return_na" none = none ∧
      ∀ x : Val,
        boolean_row title which_yes "label" (some x) =
          boolean_row title which_yes "return_na" (some x)) ∧
    (cat_row unique_vals title "label" none = [some (title ++ "_is_na")] ∧
      cat_row unique_vals title "return_na" none = [none] ∧
      ∀ s : String,
        cat_row unique_vals title "label" (some s) =
          cat_row unique_vals title "return_na" (some s)) ∧
    (∀ e, float_processer series title cutoffs "label" = .error e ↔
        float_processer series title cutoffs "return_na" = .error e) ∧
    (∀ out, float_processer series title cutoffs "return_na" = .ok out →
        float_processer series title cutoffs "label" =
          .ok (List.zipWith (na_relabel title) series out)) ∧
    boolean_processer series title which_yes "label" =
      List.zipWith (na_relabel title) series
        (boolean_processer series title which_yes "return_na") ∧
    cat_processer cats title "label" =
      List.zipWith (na_relabel title) cats
        (cat_processer cats title "return_na") := by
  refine ⟨⟨rfl, rfl, fun x => rfl⟩, ⟨rfl, rfl, fun x => rfl⟩,
    ⟨rfl, rfl, fun s => rfl⟩,
    fun e => float_processer_error_iff series title cutoffs "label"
      "return_na" e,
    fun out h => float_processer_label_of_rna series title cutoffs out h,
    boolean_processer_label_relabel series title which_yes,
    cat_processer_label_relabel cats title⟩

/-- C10 (witness): the relabelling facts at a concrete continuous column
`[1, 2, NaN]` with `cutoffs = 2`. -/
theorem C10_witness :
    float_processer [some 1, some 2, none] "t" 2 "label" =
      .ok (List.zipWith (na_relabel "t") [some 1, some 2, none]
        [some "t_lessthan_2", some "t_lessthan_2", none]) :=
  (C10_holds [] [] [] [some 1, some 2, none] [] "t" 2 1).2.2.2.2.1
    [some "t_lessthan_2", some "t_lessthan_2", none] (by decide)

end Tabarules
